import Mathlib

/-!
Verification of the text de-identification pipeline of the
`multimodal_peh_dataset` repository (`scripts/utils.py`, function
`deidentify_text`, together with the batch drivers
`scripts/deidentify_reddit_comments.py` and `scripts/deidentify_text.py`).

Strings are modelled as `List Char`.  The Python `re` module is modelled by a
small backtracking regular-expression engine over an explicit AST (`RE`) with
Python semantics: leftmost match, alternation prefers the left branch, greedy
quantifiers, zero-width word boundaries, capture groups, and `re.sub`-style
global substitution that scans the original text and never rescans
replacements.  The engine is written with an explicit fuel argument so that it
is structurally recursive and reduces inside the kernel; the wrappers always
supply sufficient fuel (one unit per character, since every quantified
sub-pattern of the source consumes at least one character per iteration and
the iteration rule additionally stops when no progress is made, exactly like
Python's no-progress rule for repeated empty matches).

The two external NLP components are parameters of the model:
`stage1 : List Char -> List Char` is the black-box pydeidentify pass
(line 48 of utils.py) and `nlp : List Char -> List Ent` is the spaCy
named-entity recognizer (line 56).  Everything else is translated line by
line from the source.
-/

set_option maxRecDepth 20000

/-! ## Character classes (Python `re`, ASCII range as used by the data) -/

def isWordChar (c : Char) : Bool := c.isAlphanum || c == '_'

def isSpaceChar (c : Char) : Bool :=
  c == ' ' || c == '\t' || c == '\n' || c == '\r' || c == '\x0b' || c == '\x0c'

def isNonSpace (c : Char) : Bool := !isSpaceChar c

def isSepChar (c : Char) : Bool := c == '-' || c == '.' || isSpaceChar c

def isUrlChar (c : Char) : Bool := c == '-' || isWordChar c || c == '.'

def isHexChar (c : Char) : Bool :=
  c.isDigit || ('a' ≤ c && c ≤ 'f') || ('A' ≤ c && c ≤ 'F')

def isEmailLocalChar (c : Char) : Bool :=
  c.isAlphanum || c == '.' || c == '_' || c == '%' || c == '+' || c == '-'

def isEmailDomainChar (c : Char) : Bool := c.isAlphanum || c == '.' || c == '-'

def isTldChar (c : Char) : Bool := c.isAlpha || c == '|'

/-! ## Regular-expression AST -/

inductive RE where
  | eps
  | cls (p : Char → Bool)
  | seq (a b : RE)
  | alt (a b : RE)
  | star (a : RE)
  | group (n : Nat) (a : RE)
  | wordB

abbrev Caps := List (Nat × List Char)

abbrev MK := Option Char → List Char → Caps → Option (List Char × Caps)

def isWordOpt : Option Char → Bool
  | some c => isWordChar c
  | none => false

def headIsWord : List Char → Bool
  | [] => false
  | c :: _ => isWordChar c

/-- One layer of the backtracking matcher.  `self` is used for the
iteration of `star` (and only there), guarded by strict progress on the
input, mirroring Python's no-progress rule.  `prev` is the character just
before the current position (for `\b`). -/
def matchStep (self : RE → Option Char → List Char → Caps → MK → Option (List Char × Caps)) :
    RE → Option Char → List Char → Caps → MK → Option (List Char × Caps)
  | .eps, prev, s, caps, k => k prev s caps
  | .cls p, _, s, caps, k =>
    match s with
    | [] => none
    | c :: t => if p c then k (some c) t caps else none
  | .seq a b, prev, s, caps, k =>
    matchStep self a prev s caps (fun p1 s1 c1 => matchStep self b p1 s1 c1 k)
  | .alt a b, prev, s, caps, k =>
    (matchStep self a prev s caps k).orElse (fun _ => matchStep self b prev s caps k)
  | .star a, prev, s, caps, k =>
    (matchStep self a prev s caps (fun p1 s1 c1 =>
        if s1.length < s.length then self (.star a) p1 s1 c1 k else k p1 s1 c1)).orElse
      (fun _ => k prev s caps)
  | .group n a, prev, s, caps, k =>
    matchStep self a prev s caps
      (fun p1 s1 c1 => k p1 s1 ((n, s.take (s.length - s1.length)) :: c1))
  | .wordB, prev, s, caps, k =>
    if isWordOpt prev == headIsWord s then none else k prev s caps

def matchF : Nat → RE → Option Char → List Char → Caps → MK → Option (List Char × Caps)
  | 0, _, _, _, _, _ => none
  | fuel + 1, r, prev, s, caps, k => matchStep (matchF fuel) r prev s caps k

/-- Attempt a match of `r` at the current position (Python `match` at one
scan position): returns the number of consumed characters and the captures. -/
def tryMatch (r : RE) (prev : Option Char) (s : List Char) : Option (Nat × Caps) :=
  match matchF (s.length + 1) r prev s [] (fun _ rest caps => some (rest, caps)) with
  | some (rest, caps) => some (s.length - rest.length, caps)
  | none => none

inductive ReplItem where
  | lit (cs : List Char)
  | grp (n : Nat)

def renderRepl (repl : List ReplItem) (caps : Caps) : List Char :=
  repl.foldr (fun item acc =>
    (match item with
     | .lit cs => cs
     | .grp n => (caps.lookup n).getD []) ++ acc) []

/-- The scan loop of Python `re.sub`: try a match at every position from the
left; on a match emit the rendered replacement and resume after the matched
text (after an empty match, copy one character, as Python does). -/
def subScanF : Nat → RE → List ReplItem → Option Char → List Char → List Char
  | 0, _, _, _, s => s
  | fuel + 1, r, repl, prev, s =>
    match tryMatch r prev s with
    | some (len, caps) =>
      if len = 0 then
        match s with
        | [] => renderRepl repl caps
        | c :: t => renderRepl repl caps ++ c :: subScanF fuel r repl (some c) t
      else
        renderRepl repl caps ++ subScanF fuel r repl (s.take len).getLast? (s.drop len)
    | none =>
      match s with
      | [] => []
      | c :: t => c :: subScanF fuel r repl (some c) t

/-- Python `re.sub(pattern, repl, s)`. -/
def reSub (r : RE) (repl : List ReplItem) (s : List Char) : List Char :=
  subScanF (s.length + 1) r repl none s

def reFindF : Nat → RE → Option Char → List Char → Bool
  | 0, _, _, _ => false
  | fuel + 1, r, prev, s =>
    match tryMatch r prev s with
    | some _ => true
    | none =>
      match s with
      | [] => false
      | c :: t => reFindF fuel r (some c) t

/-- Python `re.search(pattern, s) is not None`. -/
def reFind (r : RE) (s : List Char) : Bool :=
  reFindF (s.length + 1) r none s

/-! ## Python `str.replace` (replace every occurrence, left to right) -/

def replaceAllF : Nat → List Char → List Char → List Char → List Char
  | 0, _, _, s => s
  | fuel + 1, pat, rep, s =>
    match s with
    | [] => []
    | c :: t =>
      if pat.isPrefixOf s then rep ++ replaceAllF fuel pat rep (s.drop pat.length)
      else c :: replaceAllF fuel pat rep t

/-- Python `s.replace(pat, rep)` including the empty-pattern corner case. -/
def replaceAll (pat rep s : List Char) : List Char :=
  if pat = [] then rep ++ s.foldr (fun c acc => c :: (rep ++ acc)) []
  else replaceAllF (s.length + 1) pat rep s

/-- Substring test: `containsB p s = true` iff `p` occurs contiguously in
`s` (Python `p in s`). -/
def containsB (p : List Char) : List Char → Bool
  | [] => p.isEmpty
  | c :: t => p.isPrefixOf (c :: t) || containsB p t

/-! ## Regex construction helpers -/

def chr (c : Char) : RE := .cls (fun x => x == c)

def chrCI (c : Char) : RE := .cls (fun x => x.toLower == c.toLower)

def litL : List Char → RE
  | [] => .eps
  | c :: cs => .seq (chr c) (litL cs)

def litS (s : String) : RE := litL s.data

def litLCI : List Char → RE
  | [] => .eps
  | c :: cs => .seq (chrCI c) (litLCI cs)

def litCI (s : String) : RE := litLCI s.data

def reAlts : List RE → RE
  | [] => .cls (fun _ => false)
  | [r] => r
  | r :: rs => .alt r (reAlts rs)

def altsCI (ws : List String) : RE := reAlts (ws.map litCI)

def altsS (ws : List String) : RE := reAlts (ws.map litS)

def reSeqs (rs : List RE) : RE := rs.foldr .seq .eps

def rePlus (r : RE) : RE := .seq r (.star r)

def reOpt (r : RE) : RE := .alt r .eps

def repN : Nat → RE → RE
  | 0, _ => .eps
  | n + 1, r => .seq r (repN n r)

/-- `{m,n}` (greedy): `m` mandatory copies followed by `n - m` optional ones. -/
def repRange (m n : Nat) (r : RE) : RE := .seq (repN m r) (repN (n - m) (reOpt r))

/-! ## The de-identification pipeline (`scripts/utils.py`, lines 43-127)

`PyObj` models the dynamically typed values that reach `deidentify_text`
through pandas columns: strings, `None` and float NaN.  The
`isinstance(text, str)` guard of line 44 admits only `pstr`. -/

inductive PyObj where
  | pstr (s : List Char)
  | pnone
  | pnan
deriving DecidableEq

/-- A named-entity span as returned by the recognizer (spaCy `doc.ents`):
its surface text and its label string. -/
structure Ent where
  text : List Char
  label : String
deriving DecidableEq

def wsPlus : RE := rePlus (.cls isSpaceChar)

/-- The street-type-noun group shared by lines 73-76:
`(?:Street|Avenue|Road|Boulevard|Drive|Lane|Place|Court|Circle|Way)`. -/
def streetNoun : RE :=
  altsCI ["Street", "Avenue", "Road", "Boulevard", "Drive", "Lane", "Place",
          "Court", "Circle", "Way"]

/-- `location_patterns` of lines 60-77, in source order; every pattern is
applied with `flags=re.IGNORECASE`, which is baked into the literals. -/
def location_patterns : List (RE × List Char) :=
  [ (reSeqs [.wordB, .alt (litCI "St.") (litCI "Saint"), wsPlus,
      rePlus (.cls Char.isAlpha), wsPlus,
      altsCI ["County", "Parish", "City", "Town"], .wordB], "[LOCATION]".data)
  , (reSeqs [.wordB, altsCI ["Low", "High"], wsPlus, litCI "Barrier", wsPlus,
      altsCI ["Homeless", "Housing"], wsPlus, litCI "Shelter", .wordB],
      "[INSTITUTION]".data)
  , (reSeqs [.wordB, altsCI ["Homeless", "Housing"], wsPlus, litCI "Shelter",
      .wordB], "[INSTITUTION]".data)
  , (reSeqs [.wordB, altsCI ["Community", "Resource"], wsPlus, litCI "Center",
      .wordB], "[INSTITUTION]".data)
  , (reSeqs [.wordB, altsCI ["Public", "Private"], wsPlus,
      altsCI ["School", "University", "College"], .wordB], "[INSTITUTION]".data)
  , (reSeqs [.wordB, altsCI ["Medical", "Health"], wsPlus, litCI "Center",
      .wordB], "[INSTITUTION]".data)
  , (reSeqs [.wordB, altsCI ["Police", "Fire"], wsPlus, litCI "Department",
      .wordB], "[INSTITUTION]".data)
  , (reSeqs [.wordB, altsCI ["City", "County", "State"], wsPlus, litCI "Hall",
      .wordB], "[INSTITUTION]".data)
  , (reSeqs [.wordB, altsCI ["Public", "Private"], wsPlus,
      altsCI ["Library", "Park", "Garden"], .wordB], "[INSTITUTION]".data)
  , (reSeqs [.wordB, altsCI ["Shopping", "Retail"], wsPlus, litCI "Mall",
      .wordB], "[INSTITUTION]".data)
  , (reSeqs [.wordB, altsCI ["Bus", "Train", "Subway"], wsPlus, litCI "Station",
      .wordB], "[INSTITUTION]".data)
  , (reSeqs [.wordB, altsCI ["Airport", "Harbor", "Port"], .wordB],
      "[INSTITUTION]".data)
  , (reSeqs [.wordB, streetNoun, .wordB], "[STREET]".data)
  , (reSeqs [.wordB, altsCI ["North", "South", "East", "West", "N", "S", "E", "W"],
      wsPlus, streetNoun, .wordB], "[STREET]".data)
  , (reSeqs [.wordB, altsCI ["First", "Second", "Third", "Fourth", "Fifth",
      "Sixth", "Seventh", "Eighth", "Ninth", "Tenth"], wsPlus, streetNoun,
      .wordB], "[STREET]".data)
  , (reSeqs [.wordB, altsCI ["Main", "Broad", "Market", "Park", "Church",
      "School", "College", "University", "Hospital", "Library"], wsPlus,
      streetNoun, .wordB], "[STREET]".data)
  ]

/-- Lines 79-81: `for pattern, replacement in location_patterns:
deidentified = re.sub(pattern, replacement, deidentified, flags=re.IGNORECASE)`. -/
def applyLocationPatterns (s : List Char) : List Char :=
  location_patterns.foldl (fun dei pr => reSub pr.1 [.lit pr.2] dei) s

/-- The label-to-placeholder mapping of lines 85-95: the outer membership
test on `['PERSON', 'GPE', 'LOC', 'ORG', 'DATE', 'TIME']` combined with the
if/elif chain choosing the replacement. -/
def entPlaceholder (label : String) : Option (List Char) :=
  if label = "PERSON" then some "[PERSON]".data
  else if label = "GPE" ∨ label = "LOC" then some "[LOCATION]".data
  else if label = "ORG" then some "[ORGANIZATION]".data
  else if label = "DATE" then some "[DATE]".data
  else if label = "TIME" then some "[TIME]".data
  else none

/-- Lines 84-96: for every recognized entity with a mapped label,
`deidentified = deidentified.replace(ent.text, replacement)` - a
whole-string replace of every occurrence of the entity text. -/
def applyEntities (ents : List Ent) (s : List Char) : List Char :=
  ents.foldl (fun dei ent =>
    match entPlaceholder ent.label with
    | some replacement => replaceAll ent.text replacement dei
    | none => dei) s

/-- `(?:[-\w.]|(?:%[\da-fA-F]{2}))` of the three URL patterns. -/
def urlBody : RE :=
  .alt (.cls isUrlChar) (reSeqs [chr '%', .cls isHexChar, .cls isHexChar])

/-- `(?:/[^\s]*)?` - an optional path after a URL. -/
def urlPath : RE := reOpt (.seq (chr '/') (.star (.cls isNonSpace)))

def digitR : RE := .cls Char.isDigit

def sepOpt : RE := reOpt (.cls isSepChar)

/-- `r'\b\d{5}(?:-\d{4})?\b'` (line 111), the ZIP-code pattern. -/
def zipPattern : RE :=
  reSeqs [.wordB, repN 5 digitR, reOpt (reSeqs [chr '-', repN 4 digitR]), .wordB]

/-- The first phone pattern `r'\(?\d{3}\)?[-.\s]?\d{3}[-.\s]?\d{4}'` (line 100). -/
def phonePattern1 : RE :=
  reSeqs [reOpt (chr '('), repN 3 digitR, reOpt (chr ')'), sepOpt,
    repN 3 digitR, sepOpt, repN 4 digitR]

/-- The email pattern `r'\b[A-Za-z0-9._%+-]+@[A-Za-z0-9.-]+\.[A-Z|a-z]{2,}\b'`
(line 109). -/
def emailPattern : RE :=
  reSeqs [.wordB, rePlus (.cls isEmailLocalChar), chr '@',
    rePlus (.cls isEmailDomainChar), chr '.', .cls isTldChar, .cls isTldChar,
    .star (.cls isTldChar), .wordB]

/-- The IPv4 pattern `r'\b\d{1,3}\.\d{1,3}\.\d{1,3}\.\d{1,3}\b'` (line 110). -/
def ipPattern : RE :=
  reSeqs [.wordB, repRange 1 3 digitR, chr '.', repRange 1 3 digitR, chr '.',
    repRange 1 3 digitR, chr '.', repRange 1 3 digitR, .wordB]

/-- The `patterns` dict of lines 99-114 in insertion order (Python dicts
preserve it), applied without `re.IGNORECASE`. -/
def patterns : List (RE × List Char) :=
  [ (phonePattern1, "[PHONE]".data)
  , (reSeqs [chr '+', repRange 1 2 digitR, sepOpt, reOpt (chr '('),
      repN 3 digitR, reOpt (chr ')'), sepOpt, repN 3 digitR, sepOpt,
      repN 4 digitR], "[PHONE]".data)
  , (reSeqs [repN 3 digitR, sepOpt, repN 3 digitR, sepOpt, repN 4 digitR],
      "[PHONE]".data)
  , (reSeqs [chr '(', repN 3 digitR, chr ')', .star (.cls isSpaceChar),
      repN 3 digitR, sepOpt, repN 4 digitR], "[PHONE]".data)
  , (reSeqs [litS "http", reOpt (chr 's'), litS "://", rePlus urlBody, urlPath],
      "[URL]".data)
  , (reSeqs [litS "www.", rePlus urlBody, urlPath], "[URL]".data)
  , (reSeqs [rePlus urlBody, chr '.',
      altsS ["com", "org", "net", "edu", "gov", "mil", "biz", "info", "mobi",
             "name", "aero", "asia", "jobs", "museum"], urlPath], "[URL]".data)
  , (reSeqs [litS "[URL]", urlPath], "[URL]".data)
  , (reSeqs [litS "[URL]/search?", .star (.cls isNonSpace)], "[URL]".data)
  , (emailPattern, "[EMAIL]".data)
  , (ipPattern, "[IP]".data)
  , (zipPattern, "[ZIP]".data)
  , (reSeqs [.wordB, repRange 1 2 digitR, chr '/', repRange 1 2 digitR,
      chr '/', repRange 2 4 digitR, .wordB], "[DATE]".data)
  , (reSeqs [.wordB, altsS ["Jan", "Feb", "Mar", "Apr", "May", "Jun", "Jul",
      "Aug", "Sep", "Oct", "Nov", "Dec"], .star (.cls Char.isLower), chr ' ',
      repRange 1 2 digitR, reOpt (chr ','), chr ' ', repN 4 digitR, .wordB],
      "[DATE]".data)
  ]

/-- Lines 117-118: `for pattern, replacement in patterns.items():
deidentified = re.sub(pattern, replacement, deidentified)`. -/
def applyPatterns (s : List Char) : List Char :=
  patterns.foldl (fun dei pr => reSub pr.1 [.lit pr.2] dei) s

/-- Line 121: `re.sub(r'\[URL\]/[^\s]+', '[URL]', ...)`. -/
def urlSlashPattern : RE := reSeqs [litS "[URL]/", rePlus (.cls isNonSpace)]

/-- Line 123: `re.sub(r'\[LOCATION\]/[^\s]+', '[LOCATION]', ...)`. -/
def locSlashPattern : RE := reSeqs [litS "[LOCATION]/", rePlus (.cls isNonSpace)]

/-- Line 125: `re.sub(r'\[([^\]]+)\]\([^)]+\)', r'\1', ...)` - the
markdown-link unwrap with its capture group. -/
def mdPattern : RE :=
  reSeqs [chr '[', .group 1 (rePlus (.cls (fun c => !(c == ']')))), chr ']',
    chr '(', rePlus (.cls (fun c => !(c == ')'))), chr ')']

/-- The cleanup pass of lines 121-125, applied in source order (line 121
innermost, line 125 outermost). -/
def cleanup (s : List Char) : List Char :=
  reSub mdPattern [.grp 1]
    (reSub (litS "[LOCATION][LOCATION]") [.lit "[LOCATION]".data]
      (reSub locSlashPattern [.lit "[LOCATION]".data]
        (reSub (litS "[URL][URL]") [.lit "[URL]".data]
          (reSub urlSlashPattern [.lit "[URL]".data] s))))

/-- `deidentify_text` of lines 43-127.  `stage1` is the external
pydeidentify pass of lines 47-48 and `nlp` the external recognizer; note
that line 56 runs the recognizer on `text`, the Stage-1 output, before the
location patterns rewrite `deidentified`. -/
def deidentify_text (stage1 : List Char → List Char)
    (nlp : List Char → List Ent) : PyObj → List Char
  | .pstr t =>
    let text := stage1 t
    let docEnts := nlp text
    let deidentified := applyLocationPatterns text
    let deidentified := applyEntities docEnts deidentified
    let deidentified := applyPatterns deidentified
    cleanup deidentified
  | _ => []

/-- A recognizer that finds no entities. -/
def nlpNone : List Char → List Ent := fun _ => []

/-! ## Batch drivers -/

/-- A pandas data frame, modelled as an association list from column name to
the column values. -/
abbrev Frame := List (String × List PyObj)

/-- `df[name]`: raises `KeyError` when the column is absent. -/
def getCol (df : Frame) (name : String) : Except String (List PyObj) :=
  match df.lookup name with
  | some col => .ok col
  | none => .error ("KeyError: " ++ name)

/-- `df[name] = col`. -/
def setCol (df : Frame) (name : String) (col : List PyObj) : Frame :=
  df.filter (fun kv => !(kv.1 == name)) ++ [(name, col)]

/-- The misspelled column name indexed at line 44 of
`scripts/deidentify_reddit_comments.py`. -/
def typoColumn : String := "Deidentified_Sueidentified Submbmission_Title"

/-- Lines 36-55 of `scripts/deidentify_reddit_comments.py` for one input
frame: build the two deidentified columns (lines 40-41), then assemble the
output columns (lines 44-52, whose first dict value indexes `typoColumn`),
and finally reach `to_csv` (line 55, modelled by returning `.ok`).  An
`.error` result means the driver raised before writing the output file. -/
def processRedditFile (stage1 : List Char → List Char)
    (nlp : List Char → List Ent) (df : Frame) : Except String Frame :=
  match getCol df "Submission Title" with
  | .error e => .error e
  | .ok titles =>
    match getCol df "Comment" with
    | .error e => .error e
    | .ok comments =>
      let df2 := setCol df "Deidentified_Submission_Title"
        (titles.map (fun title => PyObj.pstr (deidentify_text stage1 nlp title)))
      let df3 := setCol df2 "Deidentified_Comment"
        (comments.map (fun comment => PyObj.pstr (deidentify_text stage1 nlp comment)))
      match getCol df3 typoColumn with
      | .error e => .error e
      | .ok c1 =>
        match getCol df3 "Submission Score" with
        | .error e => .error e
        | .ok c2 =>
          match getCol df3 "Deidentified_Comment" with
          | .error e => .error e
          | .ok c3 =>
            match getCol df3 "Comment Score" with
            | .error e => .error e
            | .ok c4 =>
              let base := [("Dission Title", c1), ("Submission Score", c2),
                           ("Deidentified Comment", c3), ("Comment Score", c4)]
              match df3.lookup "Timestamp" with
              | some ts => .ok (base ++ [("Timestamp", ts)])
              | none => .ok base

/-- pandas `astype(str)` on one object cell: a float NaN becomes the literal
string `nan`, `None` becomes `None`. -/
def astypeStr : PyObj → List Char
  | .pstr s => s
  | .pnone => "None".data
  | .pnan => "nan".data

/-- Lines 31-46 of `scripts/deidentify_text.py` restricted to one column:
`texts = df[col].astype(str).tolist()` followed by
`deidentify_text(doc.text, nlp)` for every doc of `nlp.pipe(texts)`, where
`doc.text` is exactly the string handed to the pipe. -/
def deidentify_file_column (stage1 : List Char → List Char)
    (nlp : List Char → List Ent) (col : List PyObj) : List (List Char) :=
  (col.map astypeStr).map (fun t => deidentify_text stage1 nlp (.pstr t))

/-! ## Occurrence predicates and their executable counterparts -/

/-- `p` starts `s` (string-prefix relation). -/
def Starts (p s : List Char) : Prop := ∃ t, p ++ t = s

/-- `p` occurs contiguously somewhere in `s`. -/
def OccursIn (p s : List Char) : Prop := ∃ a b, s = a ++ p ++ b

theorem isPrefixOf_eq_true_iff :
    ∀ (p s : List Char), p.isPrefixOf s = true ↔ Starts p s := by
  intro p
  induction p with
  | nil =>
    intro s
    simp [List.isPrefixOf, Starts]
  | cons c p' ih =>
    intro s
    cases s with
    | nil =>
      simp [List.isPrefixOf, Starts]
    | cons d s' =>
      simp only [List.isPrefixOf, Bool.and_eq_true, beq_iff_eq, ih]
      constructor
      · rintro ⟨hcd, t, ht⟩
        exact ⟨t, by rw [hcd, List.cons_append, ht]⟩
      · rintro ⟨t, ht⟩
        injection ht with h1 h2
        exact ⟨h1, t, h2⟩

theorem starts_cons_iff (c d : Char) (p s : List Char) :
    Starts (c :: p) (d :: s) ↔ c = d ∧ Starts p s := by
  constructor
  · rintro ⟨t, ht⟩
    injection ht with h1 h2
    exact ⟨h1, t, h2⟩
  · rintro ⟨h1, t, ht⟩
    exact ⟨t, by rw [h1, List.cons_append, ht]⟩

theorem starts_nil_right (p : List Char) : Starts p [] ↔ p = [] := by
  constructor
  · rintro ⟨t, ht⟩
    exact (List.append_eq_nil.mp ht).1
  · rintro rfl
    exact ⟨[], rfl⟩

theorem occursIn_nil_iff (p : List Char) : OccursIn p [] ↔ p = [] := by
  constructor
  · rintro ⟨a, b, h⟩
    rcases List.append_eq_nil.mp h.symm with ⟨h1, h2⟩
    exact (List.append_eq_nil.mp h1).2
  · rintro rfl
    exact ⟨[], [], rfl⟩

theorem occursIn_cons_iff (p : List Char) (c : Char) (t : List Char) :
    OccursIn p (c :: t) ↔ Starts p (c :: t) ∨ OccursIn p t := by
  constructor
  · rintro ⟨a, b, h⟩
    cases a with
    | nil => exact .inl ⟨b, by simpa using h.symm⟩
    | cons d a' =>
      injection h with h1 h2
      exact .inr ⟨a', b, h2⟩
  · rintro (⟨u, hu⟩ | ⟨a, b, h⟩)
    · exact ⟨[], u, hu.symm⟩
    · exact ⟨c :: a, b, by rw [h]; rfl⟩

theorem containsB_eq_true_iff :
    ∀ (s p : List Char), containsB p s = true ↔ OccursIn p s := by
  intro s
  induction s with
  | nil =>
    intro p
    simp [containsB, occursIn_nil_iff, List.isEmpty_iff]
  | cons c t ih =>
    intro p
    simp only [containsB, Bool.or_eq_true, isPrefixOf_eq_true_iff, ih,
      occursIn_cons_iff]

theorem containsB_eq_false_iff (p s : List Char) :
    containsB p s = false ↔ ¬ OccursIn p s := by
  constructor
  · intro h hocc
    rw [← containsB_eq_true_iff s p, h] at hocc
    exact Bool.false_ne_true hocc
  · intro h
    cases hb : containsB p s with
    | false => rfl
    | true => exact absurd ((containsB_eq_true_iff s p).mp hb) h

/-! ## Closure of Python str.replace: replacing every occurrence of a
nonempty bracket-free pattern by a bracketed placeholder leaves no
occurrence of the pattern behind -/

theorem not_starts_head_not_mem (p : List Char) (c : Char) (x : List Char)
    (hp : p ≠ []) (hc : c ∉ p) : ¬ Starts p (c :: x) := by
  rintro ⟨t, ht⟩
  cases p with
  | nil => exact hp rfl
  | cons d p' =>
    injection ht with h1 _
    subst h1
    exact hc (List.mem_cons_self ..)

theorem replaceAllF_not_starts (pat mid : List Char) :
    ∀ (fuel : Nat) (s p : List Char), s.length < fuel → pat ≠ [] → p ≠ [] →
      '[' ∉ p → ¬ Starts p s →
      ¬ Starts p (replaceAllF fuel pat ('[' :: mid ++ [']']) s) := by
  intro fuel
  induction fuel with
  | zero => intro s p hf _ _ _ _; exact absurd hf (Nat.not_lt_zero _)
  | succ f ih =>
    intro s p hf hpat hp hlb hst
    cases s with
    | nil =>
      show ¬ Starts p []
      rw [starts_nil_right]
      exact hp
    | cons c t =>
      have hlen : t.length < f := by simp at hf; omega
      by_cases hpre : pat.isPrefixOf (c :: t) = true
      · show ¬ Starts p (if pat.isPrefixOf (c :: t) then
          ('[' :: mid ++ [']']) ++ replaceAllF f pat ('[' :: mid ++ [']']) ((c :: t).drop pat.length)
          else c :: replaceAllF f pat ('[' :: mid ++ [']']) t)
        rw [if_pos hpre]
        have hsh : ('[' :: mid ++ [']']) ++
            replaceAllF f pat ('[' :: mid ++ [']']) ((c :: t).drop pat.length)
            = '[' :: (mid ++ [']'] ++
                replaceAllF f pat ('[' :: mid ++ [']']) ((c :: t).drop pat.length)) := by
          simp
        rw [hsh]
        exact not_starts_head_not_mem p '[' _ hp hlb
      · show ¬ Starts p (if pat.isPrefixOf (c :: t) then
          ('[' :: mid ++ [']']) ++ replaceAllF f pat ('[' :: mid ++ [']']) ((c :: t).drop pat.length)
          else c :: replaceAllF f pat ('[' :: mid ++ [']']) t)
        rw [if_neg hpre]
        rintro hstart
        cases p with
        | nil => exact hp rfl
        | cons d p' =>
          rw [starts_cons_iff] at hstart
          obtain ⟨hdc, hst'⟩ := hstart
          subst hdc
          cases p' with
          | nil => exact hst ⟨t, rfl⟩
          | cons e p'' =>
            have hnp : ¬ Starts (e :: p'') t := by
              intro hs
              exact hst ((starts_cons_iff ..).mpr ⟨rfl, hs⟩)
            have hlb' : '[' ∉ (e :: p'') := fun hm => hlb (List.mem_cons_of_mem _ hm)
            exact ih t (e :: p'') hlen hpat (by simp) hlb' hnp hst'

theorem rbracket_mem_of_append :
    ∀ (x1 m x2 : List Char), x1 ++ x2 = m ++ [']'] → x2 ≠ [] → ']' ∈ x2 := by
  intro x1
  induction x1 with
  | nil =>
    intro m x2 h hne
    rw [List.nil_append] at h
    rw [h]
    exact List.mem_append_right m (List.mem_cons_self ..)
  | cons c x1' ih =>
    intro m x2 h hne
    cases m with
    | nil =>
      rw [List.nil_append] at h
      injection h with h1 h2
      rcases List.append_eq_nil.mp h2 with ⟨_, h4⟩
      exact absurd h4 hne
    | cons d m' =>
      injection h with h1 h2
      exact ih m' x2 h2 hne

theorem occursIn_append_cases (p : List Char) :
    ∀ (x y : List Char), OccursIn p (x ++ y) →
      OccursIn p y ∨ ∃ x1 x2, x = x1 ++ x2 ∧ x2 ≠ [] ∧ Starts p (x2 ++ y) := by
  intro x
  induction x with
  | nil => intro y h; exact .inl (by simpa using h)
  | cons c x' ih =>
    intro y h
    rw [List.cons_append, occursIn_cons_iff] at h
    rcases h with hst | hocc
    · exact .inr ⟨[], c :: x', rfl, by simp, by simpa using hst⟩
    · rcases ih y hocc with h | ⟨x1, x2, hx, hne, hs⟩
      · exact .inl h
      · exact .inr ⟨c :: x1, x2, by rw [hx]; rfl, hne, hs⟩

theorem replaceAllF_no_occurrence (pat mid : List Char) (hpat : pat ≠ [])
    (hlb : '[' ∉ pat) (hrb : ']' ∉ pat)
    (hrep : ¬ OccursIn pat ('[' :: mid ++ [']'])) :
    ∀ (fuel : Nat) (s : List Char), s.length < fuel →
      ¬ OccursIn pat (replaceAllF fuel pat ('[' :: mid ++ [']']) s) := by
  intro fuel
  induction fuel with
  | zero => intro s hf; exact absurd hf (Nat.not_lt_zero _)
  | succ f ih =>
    intro s hf
    cases s with
    | nil =>
      show ¬ OccursIn pat []
      rw [occursIn_nil_iff]
      exact hpat
    | cons c t =>
      have hlen : t.length < f := by simp at hf; omega
      by_cases hpre : pat.isPrefixOf (c :: t) = true
      · show ¬ OccursIn pat (if pat.isPrefixOf (c :: t) then
          ('[' :: mid ++ [']']) ++ replaceAllF f pat ('[' :: mid ++ [']']) ((c :: t).drop pat.length)
          else c :: replaceAllF f pat ('[' :: mid ++ [']']) t)
        rw [if_pos hpre]
        intro hocc
        rcases occursIn_append_cases pat _ _ hocc with h | ⟨x1, x2, hx, hne, hs⟩
        · have hdrop : ((c :: t).drop pat.length).length < f := by
            rw [List.length_drop]
            have := List.length_pos.mpr hpat
            simp
            omega
          exact ih _ hdrop h
        · obtain ⟨u, hu⟩ := hs
          rcases List.append_eq_append_iff.mp hu with ⟨a', ha1, ha2⟩ | ⟨c', hc1, hc2⟩
          · exact hrep ⟨x1, a', by rw [hx, ha1]; simp⟩
          · have hmem : ']' ∈ x2 :=
              rbracket_mem_of_append x1 ('[' :: mid) x2 (by rw [← hx]) hne
            exact hrb (by rw [hc1]; exact List.mem_append_left _ hmem)
      · show ¬ OccursIn pat (if pat.isPrefixOf (c :: t) then
          ('[' :: mid ++ [']']) ++ replaceAllF f pat ('[' :: mid ++ [']']) ((c :: t).drop pat.length)
          else c :: replaceAllF f pat ('[' :: mid ++ [']']) t)
        rw [if_neg hpre]
        intro hocc
        rw [occursIn_cons_iff] at hocc
        rcases hocc with hst | hocc
        · cases pat with
          | nil => exact hpat rfl
          | cons d p' =>
            rw [starts_cons_iff] at hst
            obtain ⟨hdc, hst'⟩ := hst
            subst hdc
            cases p' with
            | nil =>
              apply hpre
              rw [isPrefixOf_eq_true_iff]
              exact ⟨t, rfl⟩
            | cons e p'' =>
              have hnp : ¬ Starts (e :: p'') t := by
                intro hs
                apply hpre
                rw [isPrefixOf_eq_true_iff]
                exact (starts_cons_iff ..).mpr ⟨rfl, hs⟩
              exact replaceAllF_not_starts (d :: e :: p'') mid f t (e :: p'') hlen hpat
                (by simp) (fun hm => hlb (List.mem_cons_of_mem _ hm)) hnp hst'
        · exact ih t hlen hocc

/-- Python `s.replace(pat, rep)` with a nonempty bracket-free `pat` and a
bracket-delimited placeholder `rep` that does not itself contain `pat`
leaves no occurrence of `pat` in the result. -/
theorem replaceAll_no_occurrence (pat mid s : List Char) (hpat : pat ≠ [])
    (hlb : '[' ∉ pat) (hrb : ']' ∉ pat)
    (hrep : ¬ OccursIn pat ('[' :: mid ++ [']'])) :
    containsB pat (replaceAll pat ('[' :: mid ++ [']']) s) = false := by
  rw [containsB_eq_false_iff]
  rw [replaceAll, if_neg hpat]
  exact replaceAllF_no_occurrence pat mid hpat hlb hrb hrep (s.length + 1) s
    (Nat.lt_succ_self _)

theorem entPlaceholder_bracketed (label : String) (rep : List Char)
    (h : entPlaceholder label = some rep) : ∃ mid, rep = '[' :: mid ++ [']'] := by
  unfold entPlaceholder at h
  split_ifs at h
  · exact ⟨"PERSON".data, by injection h with h; rw [← h]; rfl⟩
  · exact ⟨"LOCATION".data, by injection h with h; rw [← h]; rfl⟩
  · exact ⟨"ORGANIZATION".data, by injection h with h; rw [← h]; rfl⟩
  · exact ⟨"DATE".data, by injection h with h; rw [← h]; rfl⟩
  · exact ⟨"TIME".data, by injection h with h; rw [← h]; rfl⟩

/-! ## Engine lemmas: literal consumption, greedy star over a class, and
failure propagation, used for the general cleanup theorems -/

/-- The character just before the position reached after consuming `w`. -/
def lastPrev (w : List Char) (prev : Option Char) : Option Char :=
  match w with
  | [] => prev
  | c :: cs => lastPrev cs (some c)

theorem step_seq (self) (a b : RE) (prev : Option Char) (s : List Char)
    (caps : Caps) (k : MK) :
    matchStep self (.seq a b) prev s caps k
      = matchStep self a prev s caps (fun p1 s1 c1 => matchStep self b p1 s1 c1 k) := rfl

theorem step_chr_cons (self) (c : Char) (prev : Option Char) (t : List Char)
    (caps : Caps) (k : MK) :
    matchStep self (chr c) prev (c :: t) caps k = k (some c) t caps := by
  simp [matchStep, chr]

theorem matchStep_litL (self) :
    ∀ (w rest : List Char) (prev : Option Char) (caps : Caps) (k : MK),
      matchStep self (litL w) prev (w ++ rest) caps k = k (lastPrev w prev) rest caps := by
  intro w
  induction w with
  | nil =>
    intro rest prev caps k
    simp [litL, matchStep, lastPrev]
  | cons c cs ih =>
    intro rest prev caps k
    rw [litL, List.cons_append, step_seq, step_chr_cons]
    rw [ih rest (some c) caps k]
    rfl

/-- The greedy star of a single character class consumes an input all of
whose characters satisfy the class, provided the continuation succeeds at
the very end. -/
theorem matchF_star_cls_all (q : Char → Bool) (k : MK) (res : List Char × Caps) :
    ∀ (p : List Char) (fuel : Nat) (prev : Option Char) (caps : Caps),
      (∀ c ∈ p, q c = true) → p.length < fuel →
      k (lastPrev p prev) [] caps = some res →
      matchF fuel (.star (.cls q)) prev p caps k = some res := by
  intro p
  induction p with
  | nil =>
    intro fuel prev caps hall hf hk
    cases fuel with
    | zero => exact absurd hf (Nat.not_lt_zero _)
    | succ f =>
      show matchStep (matchF f) (.star (.cls q)) prev [] caps k = some res
      simp [matchStep]
      exact hk
  | cons c t ih =>
    intro fuel prev caps hall hf hk
    cases fuel with
    | zero => exact absurd hf (Nat.not_lt_zero _)
    | succ f =>
      show matchStep (matchF f) (.star (.cls q)) prev (c :: t) caps k = some res
      have hqc : q c = true := hall c (List.mem_cons_self ..)
      have hlen : t.length < f := by simp at hf; omega
      have hrec : matchF f (.star (.cls q)) (some c) t caps k = some res :=
        ih f (some c) caps (fun d hd => hall d (List.mem_cons_of_mem _ hd)) hlen hk
      simp [matchStep, hqc, hrec]

/-- `r` fails at this position whatever the continuation is. -/
def FailsAll (self : RE → Option Char → List Char → Caps → MK → Option (List Char × Caps))
    (r : RE) (prev : Option Char) (s : List Char) (caps : Caps) : Prop :=
  ∀ k, matchStep self r prev s caps k = none

theorem failsAll_seq (self) (a b : RE) (prev : Option Char) (s : List Char)
    (caps : Caps) (h : FailsAll self a prev s caps) :
    FailsAll self (.seq a b) prev s caps := by
  intro k
  rw [step_seq]
  exact h _

theorem failsAll_chr_nil (self) (c : Char) (prev : Option Char) (caps : Caps) :
    FailsAll self (chr c) prev [] caps := fun _ => rfl

theorem failsAll_chr_head (self) (c d : Char) (prev : Option Char)
    (t : List Char) (caps : Caps) (h : (d == c) = false) :
    FailsAll self (chr c) prev (d :: t) caps := by
  intro k
  simp [matchStep, chr, h]

theorem failsAll_seq_chr_cons (self) (c : Char) (b : RE) (prev : Option Char)
    (t : List Char) (caps : Caps) (h : FailsAll self b (some c) t caps) :
    FailsAll self (.seq (chr c) b) prev (c :: t) caps := by
  intro k
  rw [step_seq, step_chr_cons]
  exact h _

theorem tryMatch_none_of_failsAll (r : RE) (prev : Option Char) (s : List Char)
    (h : FailsAll (matchF s.length) r prev s []) : tryMatch r prev s = none := by
  unfold tryMatch
  rw [matchF, h]

theorem tryMatch_some_len (r : RE) (prev : Option Char) (s : List Char)
    (caps : Caps)
    (h : matchStep (matchF s.length) r prev s []
        (fun _ rest caps => some (rest, caps)) = some ([], caps)) :
    tryMatch r prev s = some (s.length, caps) := by
  unfold tryMatch
  rw [matchF, h]
  simp

theorem subScanF_nil (r : RE) (repl : List ReplItem) (prev : Option Char)
    (h : tryMatch r prev [] = none) :
    ∀ fuel, subScanF fuel r repl prev [] = [] := by
  intro fuel
  cases fuel with
  | zero => rfl
  | succ f => rw [subScanF, h]

theorem subScanF_succ_none (r : RE) (repl : List ReplItem) (prev : Option Char)
    (c : Char) (t : List Char) (f : Nat)
    (h : tryMatch r prev (c :: t) = none) :
    subScanF (f + 1) r repl prev (c :: t) = c :: subScanF f r repl (some c) t := by
  rw [subScanF, h]

/-- When no position of `s` (equivalently, no suffix) admits a match, the
scan of `re.sub` copies `s` unchanged. -/
theorem subScanF_id (r : RE) (repl : List ReplItem) :
    ∀ (fuel : Nat) (s : List Char) (prev : Option Char),
      (∀ (p' : Option Char) (b : List Char), (∃ a, a ++ b = s) → tryMatch r p' b = none) →
      subScanF fuel r repl prev s = s := by
  intro fuel
  induction fuel with
  | zero => intro s prev _; rfl
  | succ f ih =>
    intro s prev h
    have h0 : tryMatch r prev s = none := h prev s ⟨[], rfl⟩
    cases s with
    | nil => exact subScanF_nil r repl prev h0 (f + 1)
    | cons c t =>
      rw [subScanF_succ_none r repl prev c t f h0]
      have ht := ih t (some c) (fun p' b hb => h p' b (by
        obtain ⟨a, ha⟩ := hb
        exact ⟨c :: a, by rw [List.cons_append, ha]⟩))
      rw [ht]

theorem head_mem_append (a : List Char) (d : Char) (b' L : List Char)
    (h : a ++ (d :: b') = L) : d ∈ L := by
  rw [← h]
  exact List.mem_append_right a (List.mem_cons_self ..)

theorem step_cls_cons (self) (q : Char → Bool) (c : Char) (prev : Option Char)
    (t : List Char) (caps : Caps) (k : MK) (h : q c = true) :
    matchStep self (.cls q) prev (c :: t) caps k = k (some c) t caps := by
  simp [matchStep, h]

/-- A pattern consisting of a literal followed by a greedy `+` over a class
matches the whole input `w ++ c :: t` when every character after the literal
satisfies the class. -/
theorem tryMatch_lit_plus_all (w : List Char) (q : Char → Bool)
    (c : Char) (t : List Char) (prev : Option Char) (hc : q c = true)
    (ht : ∀ d ∈ t, q d = true) :
    tryMatch (.seq (litL w) (.seq (.seq (.cls q) (.star (.cls q))) .eps)) prev (w ++ c :: t)
      = some ((w ++ c :: t).length, []) := by
  apply tryMatch_some_len
  rw [step_seq, matchStep_litL, step_seq, step_seq,
    step_cls_cons _ q c _ _ _ _ hc]
  show matchF ((w ++ c :: t).length + 1) (.star (.cls q)) (some c) t [] _ = some ([], [])
  apply matchF_star_cls_all q _ ([], []) t _ (some c) [] ht
  · simp
    omega
  · rfl

theorem renderRepl_lit (rep : List Char) (caps : Caps) :
    renderRepl [.lit rep] caps = rep := by
  simp [renderRepl]

/-- A successful match of the whole remaining input replaces it entirely. -/
theorem subScanF_full_match (r : RE) (rep : List Char) (f : Nat) (s : List Char)
    (prev : Option Char) (caps : Caps) (hs : ¬ s.length = 0)
    (hm : tryMatch r prev s = some (s.length, caps))
    (hnil : ∀ prev', tryMatch r prev' [] = none) :
    subScanF (f + 1) r [.lit rep] prev s = rep := by
  cases s with
  | nil => exact absurd (rfl : ([] : List Char).length = 0) hs
  | cons c t =>
    rw [subScanF, hm]
    show renderRepl [.lit rep] caps ++
        subScanF f r [.lit rep] ((c :: t).take (c :: t).length).getLast?
          ((c :: t).drop (c :: t).length) = rep
    rw [List.drop_length, subScanF_nil _ _ _ (hnil _), renderRepl_lit,
      List.append_nil]

/-- `re.sub` with a literal-then-`+`-class pattern on an input that the
pattern matches entirely yields just the replacement. -/
theorem reSub_lit_plus_all (w : List Char) (q : Char → Bool) (rep : List Char)
    (c : Char) (t : List Char) (hc : q c = true) (ht : ∀ d ∈ t, q d = true)
    (hnil : ∀ prev, tryMatch (.seq (litL w) (.seq (.seq (.cls q) (.star (.cls q))) .eps))
        prev [] = none) :
    reSub (.seq (litL w) (.seq (.seq (.cls q) (.star (.cls q))) .eps)) [.lit rep]
      (w ++ c :: t) = rep := by
  unfold reSub
  exact subScanF_full_match _ rep _ _ none [] (by simp)
    (tryMatch_lit_plus_all w q c t none hc ht) hnil

theorem tryMatch_head_chr_fail_1 (x : RE) (c1 d : Char) (t : List Char)
    (prev : Option Char) (h : (d == c1) = false) :
    tryMatch (.seq (chr c1) x) prev (d :: t) = none :=
  tryMatch_none_of_failsAll _ _ _
    (failsAll_seq _ _ _ _ _ _ (failsAll_chr_head _ _ _ _ _ _ h))

theorem tryMatch_head_chr_fail_2 (x y : RE) (c1 d : Char) (t : List Char)
    (prev : Option Char) (h : (d == c1) = false) :
    tryMatch (.seq (.seq (chr c1) x) y) prev (d :: t) = none :=
  tryMatch_none_of_failsAll _ _ _
    (failsAll_seq _ _ _ _ _ _
      (failsAll_seq _ _ _ _ _ _ (failsAll_chr_head _ _ _ _ _ _ h)))

theorem tryMatch_two_chr_fail_1 (x : RE) (c1 c2 d : Char) (t : List Char)
    (prev : Option Char) (h : (d == c2) = false) :
    tryMatch (.seq (chr c1) (.seq (chr c2) x)) prev (c1 :: d :: t) = none :=
  tryMatch_none_of_failsAll _ _ _
    (failsAll_seq_chr_cons _ _ _ _ _ _
      (failsAll_seq _ _ _ _ _ _
        (failsAll_chr_head _ _ _ _ _ _ h)))

theorem tryMatch_two_chr_fail_2 (x y : RE) (c1 c2 d : Char) (t : List Char)
    (prev : Option Char) (h : (d == c2) = false) :
    tryMatch (.seq (.seq (chr c1) (.seq (chr c2) x)) y) prev (c1 :: d :: t) = none :=
  tryMatch_none_of_failsAll _ _ _
    (failsAll_seq _ _ _ _ _ _
      (failsAll_seq_chr_cons _ _ _ _ _ _
        (failsAll_seq _ _ _ _ _ _ (failsAll_chr_head _ _ _ _ _ _ h))))

/-! ## Behaviour of the cleanup pass on placeholder-path inputs -/

theorem tryMatch_urlSlash_nil (prev : Option Char) :
    tryMatch urlSlashPattern prev [] = none := rfl

theorem tryMatch_locSlash_nil (prev : Option Char) :
    tryMatch locSlashPattern prev [] = none := rfl

theorem tryMatch_urlUrl_nil (prev : Option Char) :
    tryMatch (litS "[URL][URL]") prev [] = none := rfl

/-- Line 121 collapses `[URL]/` followed by a nonempty whitespace-free
fragment to `[URL]`. -/
theorem reSub_urlSlash_full (c : Char) (t : List Char) (hc : isNonSpace c = true)
    (ht : ∀ d ∈ t, isNonSpace d = true) :
    reSub urlSlashPattern [.lit "[URL]".data] ("[URL]/".data ++ c :: t)
      = "[URL]".data :=
  reSub_lit_plus_all "[URL]/".data isNonSpace "[URL]".data c t hc ht
    (fun _ => rfl)

/-- Line 123 collapses `[LOCATION]/` followed by a nonempty whitespace-free
fragment to `[LOCATION]`. -/
theorem reSub_locSlash_full (c : Char) (t : List Char) (hc : isNonSpace c = true)
    (ht : ∀ d ∈ t, isNonSpace d = true) :
    reSub locSlashPattern [.lit "[LOCATION]".data] ("[LOCATION]/".data ++ c :: t)
      = "[LOCATION]".data :=
  reSub_lit_plus_all "[LOCATION]/".data isNonSpace "[LOCATION]".data c t hc ht
    (fun _ => rfl)

/-- Line 121 does not touch `[LOCATION]/` followed by a bracket-free
fragment. -/
theorem reSub_urlSlash_noop_loc (p : List Char) (hlb : '[' ∉ p) :
    reSub urlSlashPattern [.lit "[URL]".data] ("[LOCATION]/".data ++ p)
      = "[LOCATION]/".data ++ p := by
  apply subScanF_id
  intro p' b hb
  obtain ⟨a, ha⟩ := hb
  cases a with
  | nil =>
    rw [List.nil_append] at ha
    subst ha
    exact tryMatch_two_chr_fail_2 _ _ '[' 'U' 'L' ("OCATION]/".data ++ p) p' (by decide)
  | cons c0 a' =>
    have ha' : a' ++ b = "LOCATION]/".data ++ p := by
      have h2 : (c0 :: a') ++ b = '[' :: ("LOCATION]/".data ++ p) := ha
      injection h2 with h1 h2
    cases b with
    | nil => exact tryMatch_urlSlash_nil p'
    | cons d b' =>
      have hd : d ∈ "LOCATION]/".data ++ p := head_mem_append a' d b' _ ha'
      have hne : (d == '[') = false := by
        rcases List.mem_append.mp hd with hmem | hmem
        · have hall : ∀ x ∈ "LOCATION]/".data, (x == '[') = false := by decide
          exact hall d hmem
        · exact beq_eq_false_iff_ne.mpr (fun hEq => hlb (hEq ▸ hmem))
      exact tryMatch_head_chr_fail_2 _ _ '[' d b' p' hne

/-- Line 122 does not touch `[LOCATION]/` followed by a bracket-free
fragment. -/
theorem reSub_urlUrl_noop_loc (p : List Char) (hlb : '[' ∉ p) :
    reSub (litS "[URL][URL]") [.lit "[URL]".data] ("[LOCATION]/".data ++ p)
      = "[LOCATION]/".data ++ p := by
  apply subScanF_id
  intro p' b hb
  obtain ⟨a, ha⟩ := hb
  cases a with
  | nil =>
    rw [List.nil_append] at ha
    subst ha
    exact tryMatch_two_chr_fail_1 _ '[' 'U' 'L' ("OCATION]/".data ++ p) p' (by decide)
  | cons c0 a' =>
    have ha' : a' ++ b = "LOCATION]/".data ++ p := by
      have h2 : (c0 :: a') ++ b = '[' :: ("LOCATION]/".data ++ p) := ha
      injection h2 with h1 h2
    cases b with
    | nil => exact tryMatch_urlUrl_nil p'
    | cons d b' =>
      have hd : d ∈ "LOCATION]/".data ++ p := head_mem_append a' d b' _ ha'
      have hne : (d == '[') = false := by
        rcases List.mem_append.mp hd with hmem | hmem
        · have hall : ∀ x ∈ "LOCATION]/".data, (x == '[') = false := by decide
          exact hall d hmem
        · exact beq_eq_false_iff_ne.mpr (fun hEq => hlb (hEq ▸ hmem))
      exact tryMatch_head_chr_fail_1 _ '[' d b' p' hne

theorem cleanup_url_path (c : Char) (t : List Char) (hc : isNonSpace c = true)
    (ht : ∀ d ∈ t, isNonSpace d = true) :
    cleanup ("[URL]/".data ++ c :: t) = "[URL]".data := by
  unfold cleanup
  rw [reSub_urlSlash_full c t hc ht]
  decide

theorem cleanup_loc_path (c : Char) (t : List Char) (hc : isNonSpace c = true)
    (ht : ∀ d ∈ t, isNonSpace d = true) (hlb : '[' ∉ (c :: t)) :
    cleanup ("[LOCATION]/".data ++ c :: t) = "[LOCATION]".data := by
  unfold cleanup
  rw [reSub_urlSlash_noop_loc (c :: t) hlb, reSub_urlUrl_noop_loc (c :: t) hlb,
    reSub_locSlash_full c t hc ht]
  decide

/-! ## Association-list lemmas for the reddit batch driver -/

theorem lookup_filter_ne (name q : String) (h : q ≠ name) :
    ∀ (l : Frame), (l.filter (fun kv => !(kv.1 == name))).lookup q = l.lookup q := by
  intro l
  induction l with
  | nil => rfl
  | cons kv t ih =>
    obtain ⟨k, v⟩ := kv
    rw [List.filter_cons]
    by_cases hk : k = name
    · subst hk
      simp only [beq_self_eq_true, Bool.not_true, Bool.false_eq_true, if_false]
      rw [ih, List.lookup_cons, beq_false_of_ne h]
    · simp only [beq_false_of_ne hk, Bool.not_false, if_true]
      rw [List.lookup_cons, List.lookup_cons]
      cases hq : q == k
      · exact ih
      · rfl

theorem lookup_append_right_none (q : String) :
    ∀ (l1 l2 : Frame), l1.lookup q = none → (l1 ++ l2).lookup q = l2.lookup q := by
  intro l1
  induction l1 with
  | nil => intro l2 _; rfl
  | cons kv t ih =>
    intro l2 h
    obtain ⟨k, v⟩ := kv
    rw [List.cons_append, List.lookup_cons]
    rw [List.lookup_cons] at h
    cases hq : q == k
    · rw [hq] at h
      exact ih l2 h
    · rw [hq] at h
      exact Option.noConfusion h

theorem lookup_append_left_some (q : String) (v : List PyObj) :
    ∀ (l1 l2 : Frame), l1.lookup q = some v → (l1 ++ l2).lookup q = some v := by
  intro l1
  induction l1 with
  | nil => intro l2 h; exact Option.noConfusion h
  | cons kv t ih =>
    intro l2 h
    obtain ⟨k, v'⟩ := kv
    rw [List.cons_append, List.lookup_cons]
    rw [List.lookup_cons] at h
    cases hq : q == k
    · rw [hq] at h
      exact ih l2 h
    · rw [hq] at h
      exact h

theorem lookup_setCol_ne (df : Frame) (name q : String) (col : List PyObj)
    (h : q ≠ name) : (setCol df name col).lookup q = df.lookup q := by
  unfold setCol
  cases hl : df.lookup q with
  | none =>
    rw [lookup_append_right_none q _ _ (by rw [lookup_filter_ne name q h df]; exact hl)]
    rw [List.lookup_cons, beq_false_of_ne h]
    rfl
  | some v =>
    exact lookup_append_left_some q v _ _ (by rw [lookup_filter_ne name q h df]; exact hl)

/-! ## Recognizer fixtures used by the claims -/

/-- A recognizer that tags the single span `Springfield` as GPE on the raw
input text but finds nothing once the structural pass has rewritten it. -/
def nlpSpringfield : List Char → List Ent := fun s =>
  if s = "123 Main Street, Springfield".data then [⟨"Springfield".data, "GPE"⟩]
  else []

/-- A recognizer that tags exactly one `John Smith` span as PERSON. -/
def nlpJohnSmith : List Char → List Ent := fun s =>
  if s = "John Smith met John Smith again.".data
  then [⟨"John Smith".data, "PERSON"⟩] else []

/-- A recognizer that tags the single span `John` as PERSON. -/
def nlpJohnParen : List Char → List Ent := fun s =>
  if s = "John(x)".data then [⟨"John".data, "PERSON"⟩] else []

/-- The Stage-3 ordering that the specification describes: `Run the
recognizer over the Stage-2 output`, detecting entity spans in the text
after structural substitution rather than before it.  This is the
refinement target that claim C2 compares `deidentify_text` against. -/
def deidentify_text_asSpecified (stage1 : List Char → List Char)
    (nlp : List Char → List Ent) : PyObj → List Char
  | .pstr t =>
    let text := stage1 t
    let d2 := applyLocationPatterns text
    let ents := nlp d2
    let d3 := applyEntities ents d2
    cleanup (applyPatterns d3)
  | _ => []

/-! ## Claim theorems -/

/-- C1: evaluating the engine at the failing input.  With an identity
Stage-1 pass and a recognizer returning no entities, the code maps
`123 Main Street, Springfield` to `123 Main [STREET], Springfield`: the
bare street-type-noun rule of line 73 runs before the multi-word rules of
lines 74-76, so the output contains the fragment `Main [STREET]` that the
claim says can never appear. -/
theorem C1_bare_street_rule_first :
    deidentify_text id nlpNone (.pstr "123 Main Street, Springfield".data)
      = "123 Main [STREET], Springfield".data ∧
    containsB "Main [STREET]".data "123 Main [STREET], Springfield".data = true :=
  ⟨by decide, by decide⟩

/-- C2 counterexample: the engine does not coincide with the
run-the-recognizer-over-the-Stage-2-output refinement the spec describes.
With a recognizer that sees `Springfield` in the raw text but nothing in
the structurally rewritten text, the two orderings produce different
outputs on the same input. -/
theorem C2_counterexample :
    deidentify_text id nlpSpringfield (.pstr "123 Main Street, Springfield".data)
      ≠ deidentify_text_asSpecified id nlpSpringfield
          (.pstr "123 Main Street, Springfield".data) := by decide

/-- C2 (amended): Stage 3 substitutes the entity spans detected by running
the recognizer on the Stage-1 output (line 56 runs before the structural
pass), applying the substitution to the Stage-2 output; running the
recognizer on the Stage-2 output instead (as the spec says) can change the
result, as the two concrete evaluations show. -/
theorem C2_recognizer_sees_stage1_text :
    (∀ (stage1 : List Char → List Char) (nlp : List Char → List Ent) (t : List Char),
      deidentify_text stage1 nlp (.pstr t)
        = cleanup (applyPatterns (applyEntities (nlp (stage1 t))
            (applyLocationPatterns (stage1 t))))) ∧
    deidentify_text id nlpSpringfield (.pstr "123 Main Street, Springfield".data)
      = "123 Main [STREET], [LOCATION]".data ∧
    deidentify_text_asSpecified id nlpSpringfield
        (.pstr "123 Main Street, Springfield".data)
      = "123 Main [STREET], Springfield".data :=
  ⟨fun _ _ _ => rfl, by decide, by decide⟩

/-- C3 counterexample: the pipeline is not idempotent.  Re-running the
engine on the already redacted output of `Street` changes it again. -/
theorem C3_counterexample :
    deidentify_text id nlpNone
        (.pstr (deidentify_text id nlpNone (.pstr "Street".data)))
      ≠ deidentify_text id nlpNone (.pstr "Street".data) := by decide

/-- C3 (amended): redaction is not idempotent, because the placeholder
`[STREET]` is itself re-matched by the case-insensitive bare
street-type-noun rule of line 73: `Street` redacts to `[STREET]`, and
redacting `[STREET]` yields `[[STREET]]`. -/
theorem C3_not_idempotent :
    deidentify_text id nlpNone (.pstr "Street".data) = "[STREET]".data ∧
    deidentify_text id nlpNone (.pstr "[STREET]".data) = "[[STREET]]".data ∧
    "[[STREET]]".data ≠ "[STREET]".data :=
  ⟨by decide, by decide, by decide⟩

/-- C4: Stage 3 performs a whole-string replace for each mapped entity.
First conjunct: for any entity whose label maps to a placeholder, if the
entity text is nonempty, bracket-free and not contained in the placeholder,
then no occurrence of the entity text survives anywhere in the string -
every literal occurrence is replaced, not just the tagged span.  Second
conjunct: the spec example, where one tagged `John Smith` span redacts both
occurrences. -/
theorem C4_entity_whole_string_replacement :
    (∀ (e : Ent) (s rep : List Char), entPlaceholder e.label = some rep →
      e.text ≠ [] → '[' ∉ e.text → ']' ∉ e.text → containsB e.text rep = false →
      containsB e.text (applyEntities [e] s) = false) ∧
    deidentify_text id nlpJohnSmith
        (.pstr "John Smith met John Smith again.".data)
      = "[PERSON] met [PERSON] again.".data := by
  constructor
  · intro e s rep hmap hne hlb hrb hrep
    have happ : applyEntities [e] s = replaceAll e.text rep s := by
      simp [applyEntities, hmap]
    rw [happ]
    obtain ⟨mid, rfl⟩ := entPlaceholder_bracketed _ _ hmap
    exact replaceAll_no_occurrence e.text mid s hne hlb hrb
      ((containsB_eq_false_iff _ _).mp hrep)
  · decide

/-- C4 witness: the general conjunct applied to the PERSON entity
`John Smith` on the spec example string. -/
theorem C4_witness :
    containsB "John Smith".data
      (applyEntities [⟨"John Smith".data, "PERSON"⟩]
        "John Smith met John Smith again.".data) = false :=
  C4_entity_whole_string_replacement.1 ⟨"John Smith".data, "PERSON"⟩
    "John Smith met John Smith again.".data "[PERSON]".data (by decide)
    (by decide) (by decide) (by decide) (by decide)

/-- C5 counterexample: placeholder closure fails.  On input `[123](x)45`
the whole pipeline (identity Stage 1, no entities) outputs a string that
the Stage-4 ZIP pattern still matches. -/
theorem C5_counterexample :
    reFind zipPattern
      (deidentify_text id nlpNone (.pstr "[123](x)45".data)) = true := by decide

/-- C5 (amended): re-running Stage-4 detection on the output can find new
matches: the Stage-5 markdown unwrap splices digit fragments together, so
`[123](x)45` redacts to `12345`, which the ZIP pattern matches. -/
theorem C5_markdown_creates_zip_match :
    deidentify_text id nlpNone (.pstr "[123](x)45".data) = "12345".data ∧
    reFind zipPattern "12345".data = true :=
  ⟨by decide, by decide⟩

/-- C6: non-string inputs (`None`, NaN) return the empty string by the
line 44 guard, and the empty string maps to the empty string whenever the
external Stage-1 pass and the recognizer are empty-preserving. -/
theorem C6_nonstring_and_empty :
    (∀ (stage1 : List Char → List Char) (nlp : List Char → List Ent),
      deidentify_text stage1 nlp .pnone = []) ∧
    (∀ (stage1 : List Char → List Char) (nlp : List Char → List Ent),
      deidentify_text stage1 nlp .pnan = []) ∧
    (∀ (stage1 : List Char → List Char) (nlp : List Char → List Ent),
      stage1 [] = [] → nlp [] = [] → deidentify_text stage1 nlp (.pstr []) = []) := by
  refine ⟨fun _ _ => rfl, fun _ _ => rfl, fun s n h1 h2 => ?_⟩
  show cleanup (applyPatterns (applyEntities (n (s []))
    (applyLocationPatterns (s [])))) = []
  rw [h1, h2]
  decide

/-- C6 witness: the theorem applied at the identity Stage-1 pass and the
empty recognizer. -/
theorem C6_witness :
    deidentify_text id nlpNone .pnone = [] ∧
    deidentify_text id nlpNone .pnan = [] ∧
    deidentify_text id nlpNone (.pstr []) = [] :=
  ⟨C6_nonstring_and_empty.1 id nlpNone, C6_nonstring_and_empty.2.1 id nlpNone,
   C6_nonstring_and_empty.2.2 id nlpNone rfl rfl⟩

/-- C7: the Stage-5 cleanup pass collapses a `[URL]` or `[LOCATION]`
placeholder immediately followed by a leftover path fragment (nonempty run
of non-whitespace characters; bracket-free in the LOCATION case so that
the URL rules of lines 121-122 stay inert) to the bare placeholder, and
collapses the adjacent pairs `[URL][URL]` and `[LOCATION][LOCATION]` to a
single placeholder. -/
theorem C7_cleanup_collapse :
    (∀ (c : Char) (t : List Char), isNonSpace c = true →
      (∀ d ∈ t, isNonSpace d = true) →
      cleanup ("[URL]/".data ++ c :: t) = "[URL]".data) ∧
    (∀ (c : Char) (t : List Char), isNonSpace c = true →
      (∀ d ∈ t, isNonSpace d = true) → '[' ∉ (c :: t) →
      cleanup ("[LOCATION]/".data ++ c :: t) = "[LOCATION]".data) ∧
    cleanup "[URL][URL]".data = "[URL]".data ∧
    cleanup "[LOCATION][LOCATION]".data = "[LOCATION]".data :=
  ⟨cleanup_url_path, cleanup_loc_path, by decide, by decide⟩

/-- C7 witness: the collapse theorems applied to the concrete path
fragments `search?q=homeless` and `path`. -/
theorem C7_witness :
    cleanup ("[URL]/".data ++ 's' :: "earch?q=homeless".data) = "[URL]".data ∧
    cleanup ("[LOCATION]/".data ++ 'p' :: "ath".data) = "[LOCATION]".data :=
  ⟨C7_cleanup_collapse.1 's' "earch?q=homeless".data (by decide) (by decide),
   C7_cleanup_collapse.2.1 'p' "ath".data (by decide) (by decide) (by decide)⟩

/-- C8 counterexample: a placeholder produced by Stage 3 does not always
survive to the final output in bracketed form.  On `John(x)` with `John`
tagged PERSON, the intermediate string after entity substitution contains
`[PERSON]`, but the final output does not. -/
theorem C8_counterexample :
    containsB "[PERSON]".data
      (applyEntities (nlpJohnParen "John(x)".data)
        (applyLocationPatterns "John(x)".data)) = true ∧
    containsB "[PERSON]".data
      (deidentify_text id nlpJohnParen (.pstr "John(x)".data)) = false :=
  ⟨by decide, by decide⟩

/-- C8 (amended): the markdown-link unwrap of line 125 strips the brackets
of a placeholder that is immediately followed by a parenthesized fragment:
the full pipeline maps `John(x)` (with `John` tagged PERSON) to `PERSON`,
and the cleanup pass alone maps `[PERSON](x)` to `PERSON`. -/
theorem C8_markdown_strips_placeholder :
    deidentify_text id nlpJohnParen (.pstr "John(x)".data) = "PERSON".data ∧
    cleanup "[PERSON](x)".data = "PERSON".data :=
  ⟨by decide, by decide⟩

/-- C9: for any input frame that has the `Submission Title` and `Comment`
columns (so processing reaches output assembly) and does not already
contain the misspelled column, the reddit driver stops with a `KeyError`
on the misspelled column name and never reaches the `to_csv` write. -/
theorem C9_reddit_driver_keyerror (stage1 : List Char → List Char)
    (nlp : List Char → List Ent) (df : Frame) (ts cs : List PyObj)
    (h1 : df.lookup "Submission Title" = some ts)
    (h2 : df.lookup "Comment" = some cs)
    (h3 : df.lookup typoColumn = none) :
    processRedditFile stage1 nlp df = .error ("KeyError: " ++ typoColumn) := by
  have g1 : getCol df "Submission Title" = .ok ts := by unfold getCol; rw [h1]
  have g2 : getCol df "Comment" = .ok cs := by unfold getCol; rw [h2]
  have hl3 : ∀ colA colB : List PyObj,
      (setCol (setCol df "Deidentified_Submission_Title" colA)
        "Deidentified_Comment" colB).lookup typoColumn = none := by
    intro colA colB
    rw [lookup_setCol_ne _ _ _ _ (by decide), lookup_setCol_ne _ _ _ _ (by decide)]
    exact h3
  have g3 : ∀ colA colB : List PyObj,
      getCol (setCol (setCol df "Deidentified_Submission_Title" colA)
        "Deidentified_Comment" colB) typoColumn
        = .error ("KeyError: " ++ typoColumn) := by
    intro colA colB
    unfold getCol
    rw [hl3 colA colB]
  unfold processRedditFile
  simp only [g1, g2, g3]

/-- C9 witness: a concrete four-column frame on which the driver raises
the `KeyError` before writing. -/
theorem C9_witness :
    processRedditFile id nlpNone
      [("Submission Title", [.pstr "t".data]), ("Comment", [.pstr "c".data]),
       ("Submission Score", [.pstr "1".data]), ("Comment Score", [.pstr "2".data])]
      = .error ("KeyError: " ++ typoColumn) :=
  C9_reddit_driver_keyerror id nlpNone _ [.pstr "t".data] [.pstr "c".data]
    (by decide) (by decide) (by decide)

/-- C10: the `deidentify_text.py` driver stringifies every cell with
`astype(str)` before calling the engine, so the engine always receives a
string; a NaN cell reaches it as the literal string `nan` and produces the
redaction of `nan` (namely `nan` itself), not the empty string that the
engine would return for a raw non-string NaN. -/
theorem C10_driver_astype_str :
    (∀ (stage1 : List Char → List Char) (nlp : List Char → List Ent)
      (col : List PyObj),
      deidentify_file_column stage1 nlp col
        = col.map (fun cell => deidentify_text stage1 nlp (.pstr (astypeStr cell)))) ∧
    deidentify_file_column id nlpNone [.pnan] = ["nan".data] ∧
    deidentify_text id nlpNone .pnan = [] ∧
    "nan".data ≠ ([] : List Char) := by
  refine ⟨fun s n col => ?_, by decide, rfl, by decide⟩
  rw [deidentify_file_column, List.map_map]
  rfl
